import Mathlib

/-!
Shallow embedding of the transaction submission/confirmation engine in
`src/upload/transactions.ts` of the candymachine-client-sdk repository,
together with theorems settling the claims about its specification.

The embedding models the asynchronous control flow of the four functions
`awaitTransactionSignatureConfirmation`, `sendSignedTransaction`,
`simulateTransaction` (its caller-side error handling) and
`sendTransactions` as pure Lean functions over explicit environments: the
environment records how the network behaves (which events fire, in which
temporal order, and what each RPC call returns), and the functions return
the observable result together with traces of the side effects the claims
speak about (listener registrations, simulator invocations, network calls,
callback invocations, the `done` flag).
-/

namespace CandyMachine

/-! ## Confirmation tracker (`awaitTransactionSignatureConfirmation`)

The tracker wraps a promise raced by three branches: a `setTimeout` that
rejects `{timeout: true}`, a websocket `onSignature` callback that resolves
or rejects with a status object, and a 2-second poll loop querying
`getSignatureStatuses`.  All three communicate through the shared `done`
flag.  We model an execution as the temporally ordered list of events that
fire, folded through a step function that mirrors each branch's guards. -/

/-- Model of web3's `SignatureStatus` as used by the tracker: the `err`
field (a transaction error, modelled as a string), the slot, and the
confirmation count (JS `null`/`0` are both falsy; we use `0`). -/
structure SigStatus where
  err : Option String
  slot : Nat
  confirmations : Nat
deriving DecidableEq, Repr

/-- One response of the poll branch's `getSignatureStatuses` query:
the query may throw (REST connection error, swallowed), return a null
`value[0]`, or return a status object. -/
inductive PollResponse
  | throws
  | nullStatus
  | status (st : SigStatus)
deriving DecidableEq, Repr

/-- One asynchronous event during a tracker run, in temporal order:
the `setTimeout` firing, a websocket `onSignature` notification
(carrying `result.err` and `context.slot`), or one poll query response. -/
inductive TrackerEvent
  | timeout
  | wsNotify (err : Option String) (slot : Nat)
  | poll (r : PollResponse)
deriving DecidableEq, Repr

/-- Environment of one `awaitTransactionSignatureConfirmation` call:
whether `connection.onSignature` throws during setup, the `queryStatus`
argument, and the temporally ordered events that fire. -/
structure TrackerEnv where
  setupThrows : Bool
  queryStatus : Bool
  events : List TrackerEvent
deriving DecidableEq, Repr

/-- How the internal promise settles.  The code rejects with three
different shapes: `{timeout: true}` from the timeout branch, the whole
status object from the websocket branch, and the bare `status.err` value
from the poll branch. -/
inductive Settlement
  | resolved (st : SigStatus)
  | rejTimeout
  | rejStatus (st : SigStatus)
  | rejErr (e : String)
deriving DecidableEq, Repr

/-- One step of the tracker state machine.  State is the `done` flag and
the settlement of the promise (`none` while pending; a promise settles at
most once, so later `resolve`/`reject` calls keep the first settlement).
`registered` is whether `onSignature` succeeded: if it threw, no websocket
notification can ever be delivered.  The poll branch only acts while
`queryStatus` holds and `done` is false (the loop guard `!done &&
queryStatus` and the in-flight `if (!done)` check coincide). -/
def stepEvent (queryStatus registered : Bool) :
    Bool × Option Settlement → TrackerEvent → Bool × Option Settlement
  | (done, settled), .timeout =>
      if done then (done, settled) else (true, some .rejTimeout)
  | (done, settled), .wsNotify err slot =>
      if registered then
        (true, (settled.orElse fun _ => some (match err with
          | some e => .rejStatus ⟨some e, slot, 0⟩
          | none => .resolved ⟨none, slot, 0⟩)))
      else (done, settled)
  | (done, settled), .poll r =>
      if done || !queryStatus then (done, settled)
      else match r with
        | .throws => (done, settled)
        | .nullStatus => (done, settled)
        | .status st =>
          match st.err with
          | some e => (true, some (.rejErr e))
          | none =>
            if st.confirmations == 0 then (done, settled)
            else (true, some (.resolved st))

/-- Run the tracker's promise executor over the event list.  A setup
throw sets `done := true` synchronously in the `catch` before any event
fires. -/
def trackerRun (env : TrackerEnv) : Bool × Option Settlement :=
  env.events.foldl (stepEvent env.queryStatus (!env.setupThrows))
    (env.setupThrows, none)

/-- Observable outcome of `awaitTransactionSignatureConfirmation`:
the call hangs if the promise never settles, returns the status if it
resolves, and rethrows the rejection value otherwise (the statement after
the `await` is only reached on resolution). -/
inductive AwaitOutcome
  | hangs
  | returns (st : SigStatus)
  | throwsTimeout
  | throwsStatus (st : SigStatus)
  | throwsErr (e : String)
deriving DecidableEq, Repr

/-- Embedded `awaitTransactionSignatureConfirmation`. -/
def awaitTransactionSignatureConfirmation (env : TrackerEnv) : AwaitOutcome :=
  match (trackerRun env).2 with
  | none => .hangs
  | some (.resolved st) => .returns st
  | some .rejTimeout => .throwsTimeout
  | some (.rejStatus st) => .throwsStatus st
  | some (.rejErr e) => .throwsErr e

/-- Number of successful `connection.onSignature` registrations in one
call: one unless setup threw. -/
def registerCalls (env : TrackerEnv) : Nat :=
  if env.setupThrows then 0 else 1

/-- Number of `connection.removeSignatureListener` calls in one call:
the unregister statement sits after the `await` of the internal promise
with no `try`/`finally`, so it executes only when the promise resolves. -/
def removeSignatureListenerCalls (env : TrackerEnv) : Nat :=
  match awaitTransactionSignatureConfirmation env with
  | .returns _ => 1
  | _ => 0

/-! ## Simulator error path and `sendSignedTransaction`

`sendSignedTransaction` sends the raw bytes once, spawns a 500ms resend
loop gated by the shared `done` flag, awaits the tracker, and handles
errors in a catch block that (for non-timeout errors) runs
`simulateTransaction` and extracts a program-log message.  The `finally`
block sets `done := true` on every terminating path. -/

/-- The program-log marker scanned for in simulated logs. -/
def programLogMarker : String := "Program log: "

/-- Model of `String.startsWith` by character-list prefix comparison
(extensionally the same and kernel-reducible). -/
def strStartsWith (s pre : String) : Bool := pre.data.isPrefixOf s.data

/-- Model of `String.drop`/`slice` from the front by character-list drop
(extensionally the same and kernel-reducible). -/
def strDrop (s : String) (n : Nat) : String := ⟨s.data.drop n⟩

/-- Embedded backward scan of the simulated log lines: the source loop
runs `for i = logs.length - 1; i >= 0; --i` and throws at the first line
found that starts with the marker, i.e. the last matching line of the
list.  The recursion inspects the later lines first, then the head, and
strips the marker from the match. -/
def scanProgramLog : List String → Option String
  | [] => none
  | line :: rest =>
    match scanProgramLog rest with
    | some r => some r
    | none =>
      if strStartsWith line programLogMarker then
        some (strDrop line programLogMarker.length)
      else none

/-- Model of `JSON.stringify` applied to a transaction error value
(errors are modelled as strings, so serialization wraps them in
quotes). -/
def jsonStringify (e : String) : String := "\"" ++ e ++ "\""

/-- Model of web3's `SimulatedTransactionResponse` as used by the error
path: the `err` field and the optional array of log lines. -/
structure SimResult where
  err : Option String
  logs : Option (List String)
deriving DecidableEq, Repr

/-- Message of the error thrown by the Simulator error path when
`simulateResult.err` is set: the last program-log line stripped of the
marker (prefixed by the fixed failure text), or the raw structured error
serialized as text when no line matches or `logs` is null (an empty log
array is truthy in the source, enters the loop, matches nothing, and
falls through to the serialization as well). -/
def simulateErrorMessage (r : SimResult) : String :=
  match scanProgramLog (r.logs.getD []) with
  | some line => "Transaction failed: " ++ line
  | none => jsonStringify (r.err.getD "")

/-- Outcome of the `simulateTransaction` call itself: it may throw
(caught and logged, leaving `simulateResult = null`) or produce a
response value. -/
inductive SimOutcome
  | throws (e : String)
  | value (r : SimResult)
deriving DecidableEq, Repr

/-- Environment of one `sendSignedTransaction` call: the tracker's
environment, the simulator's behaviour, and the transaction id returned
by the initial `sendRawTransaction`. -/
structure SSTEnv where
  tracker : TrackerEnv
  sim : SimOutcome
  txid : String
deriving DecidableEq, Repr

/-- Observable outcome of `sendSignedTransaction`: a resolution with a
(possibly null/undefined, hence optional) txid and a slot, a rejection
with an error message, or a hang when the tracker never returns. -/
inductive SSTOutcome
  | ok (txid : Option String) (slot : Nat)
  | thrown (msg : String)
  | hang
deriving DecidableEq, Repr

/-- Result of one `sendSignedTransaction` call together with the traces
the claims speak about: the final value of the `done` flag gating the
resend loop, and how many times `simulateTransaction` was invoked. -/
structure SSTResult where
  outcome : SSTOutcome
  done : Bool
  simulateCalls : Nat
deriving DecidableEq, Repr

/-- Embedded catch block of `sendSignedTransaction` for a non-timeout
error: `simulateTransaction` is run (its own failure is caught, leaving
`simulateResult = null`); if the simulated result carries an error, the
extracted message is thrown; otherwise the code falls through and
resolves with `txid = simulateResult?.err as string`, which is
null/undefined — modelled as `none`.  `slot` is still `0` on this path
because the throw preceded the slot assignment. -/
def sendSignedCatch (sim : SimOutcome) : SSTOutcome :=
  match sim with
  | .throws _ => .ok none 0
  | .value r =>
    match r.err with
    | some _ => .thrown (simulateErrorMessage r)
    | none => .ok none 0

/-- Embedded `sendSignedTransaction`.  The branches follow the source:
a rejection carrying `{timeout: true}` is rethrown as the timeout error
without simulating; any other rejection (a websocket status object, a
poll error value, or the in-try throw on a resolved status carrying an
error) reaches the catch block's simulate path; the `finally` sets
`done := true` on every terminating branch, while a hanging tracker
leaves it `false` forever. -/
def sendSignedTransaction (env : SSTEnv) : SSTResult :=
  match awaitTransactionSignatureConfirmation env.tracker with
  | .hangs => ⟨.hang, false, 0⟩
  | .returns st =>
    match st.err with
    | some _ => ⟨sendSignedCatch env.sim, true, 1⟩
    | none => ⟨.ok (some env.txid) st.slot, true, 0⟩
  | .throwsTimeout =>
    ⟨.thrown "Timed out awaiting confirmation on transaction", true, 0⟩
  | .throwsStatus _ => ⟨sendSignedCatch env.sim, true, 1⟩
  | .throwsErr _ => ⟨sendSignedCatch env.sim, true, 1⟩

/-- Guard of the background resend loop:
`!done && getUnixTs() - startTime < timeout`. -/
def resendLoopContinues (done : Bool) (elapsed timeout : Nat) : Bool :=
  !done && decide (elapsed < timeout)

/-! ## Batch sequencer (`sendTransactions`)

`sendTransactions` checks the wallet identity, resolves one shared
blockhash, builds one transaction per non-empty instruction group,
partitions by whether the wallet's signature slot is present, signs the
needy ones in one batched `signAllTransactions` call, and drives the
recombined list under the chosen sequence type. -/

/-- Public keys are modelled as naturals; `equals` is equality. -/
abbrev PubKey := Nat

/-- Opaque instruction payload; the sequencer never inspects it. -/
structure Instruction where
  payload : Nat
deriving DecidableEq, Repr

/-- A co-signer keypair as the sequencer uses it: only its public key
matters (its secret half signs locally). -/
structure Keypair where
  publicKey : PubKey
deriving DecidableEq, Repr

/-- Model of a web3 `Transaction` as the sequencer observes it: its
instructions, its recent blockhash, the list of signature slots created
by `setSigners` (or carried by a supplied pre-signed transaction), and
whether the wallet's batched signing has been applied to it. -/
structure Tx where
  instructions : List Instruction
  recentBlockhash : Option String
  signatureSlots : List PubKey
  walletSigned : Bool
deriving DecidableEq, Repr

/-- The three execution policies of `sendTransactions`. -/
inductive SequenceType
  | Sequential
  | Parallel
  | StopOnFailure
deriving DecidableEq, Repr

/-- The wallet capability: an optional signing identity.  Its
`signAllTransactions` is modelled by `signTx` below; each batched call
is recorded in the result trace. -/
structure Wallet where
  publicKey : Option PubKey
deriving DecidableEq, Repr

/-- Effect of the wallet signing one transaction inside the batched
`signAllTransactions` call. -/
def signTx (t : Tx) : Tx := { t with walletSigned := true }

/-- Environment of one `sendTransactions` call: the blockhash
`getLatestBlockhash` would return, and the outcome of
`sendSignedTransaction` for the transaction at each index of the signed
list (`.ok (txid, slot)` on resolution, `.error` on rejection). -/
structure BatchEnv where
  latestBlockhash : String
  sendOutcome : Nat → Except String (String × Nat)

/-- The `{number, txs}` value `sendTransactions` resolves with. -/
structure SeqResult where
  number : Nat
  txs : List (String × Nat)
deriving DecidableEq, Repr

/-- Result of one `sendTransactions` call together with the traces the
claims speak about: `getLatestBlockhash` fetches, the indices submitted
through `sendSignedTransaction`, the success/failure callback
invocations, the argument of each batched `signAllTransactions` call,
and the recombined signed list in submission order. -/
structure BatchResult where
  result : Except String SeqResult
  blockhashFetches : Nat
  sends : List Nat
  successCalls : List (String × Nat)
  failCalls : List Nat
  signAllBatches : List (List Tx)
  signedTxns : List Tx
deriving Repr

/-- Embedded transaction-building loop: empty instruction groups are
skipped; each other group yields a transaction with the group's
instructions, the shared blockhash, and signature slots for the
fee-payer wallet followed by the group's co-signers (`setSigners`);
`partialSign` by the co-signers leaves the slots unchanged in this
model.  `signersSet` is walked alongside by position (the source indexes
it and would throw on a missing entry; the claims never exercise that). -/
def buildTxns (pk : PubKey) (block : String) :
    List (List Instruction) → List (List Keypair) → List Tx
  | [], _ => []
  | instrs :: rest, signersSet =>
    let signers := signersSet.headD []
    let tail := buildTxns pk block rest signersSet.tail
    if instrs.isEmpty then tail
    else ⟨instrs, some block, pk :: signers.map (·.publicKey), false⟩ :: tail

/-- The `unsignedTxns` array right before partitioning: the supplied
before-transactions (the array the built ones are pushed onto), the
built ones, then the supplied after-transactions. -/
def unsignedTxnsOf (pk : PubKey) (block : String)
    (instructionSet : List (List Instruction))
    (signersSet : List (List Keypair))
    (beforeTransactions afterTransactions : List Tx) : List Tx :=
  beforeTransactions ++ buildTxns pk block instructionSet signersSet ++
    afterTransactions

/-- The recombined `signedTxns` list: the fully signed transactions
(no wallet signature slot) first, then the wallet-signed ones, each
partition in its original relative order. -/
def signedTxnsOf (pk : PubKey) (block : String)
    (instructionSet : List (List Instruction))
    (signersSet : List (List Keypair))
    (beforeTransactions afterTransactions : List Tx) : List Tx :=
  let unsignedTxns :=
    unsignedTxnsOf pk block instructionSet signersSet beforeTransactions
      afterTransactions
  unsignedTxns.filter (fun t => !(t.signatureSlots.contains pk)) ++
    (unsignedTxns.filter (fun t => t.signatureSlots.contains pk)).map signTx

/-- Accumulator of the non-parallel send loop: the resolved values of
`pendingTxns`, the success-callback invocations, the failure-callback
indices, and the submitted indices. -/
structure LoopAcc where
  pending : List (String × Nat)
  successCalls : List (String × Nat)
  failCalls : List Nat
  sends : List Nat
deriving Repr

/-- Embedded non-parallel send loop (`Sequential` / `StopOnFailure`):
the transaction at index `i` is submitted and awaited; on resolution the
success callback fires and the promise joins `pendingTxns`; on rejection
the failure callback fires and, under `StopOnFailure`, the loop returns
early with `{number: i, txs: await Promise.all(pendingTxns)}`. -/
def seqLoop (send : Nat → Except String (String × Nat)) (stop : Bool) :
    Nat → Nat → LoopAcc → LoopAcc × Option SeqResult
  | 0, _, acc => (acc, none)
  | remaining + 1, i, acc =>
    match send i with
    | .ok v =>
      seqLoop send stop remaining (i + 1)
        { acc with
          pending := acc.pending ++ [v]
          successCalls := acc.successCalls ++ [(v.1, i)]
          sends := acc.sends ++ [i] }
    | .error _ =>
      let acc' := { acc with
        failCalls := acc.failCalls ++ [i]
        sends := acc.sends ++ [i] }
      if stop then (acc', some ⟨i, acc'.pending⟩)
      else seqLoop send stop remaining (i + 1) acc'

/-- Embedded `Parallel` branch: every index is submitted concurrently
and `Promise.all` is awaited; a rejection rejects the whole call (the
first failing index stands in for the first rejection in time). -/
def parallelResults (send : Nat → Except String (String × Nat)) (n : Nat) :
    Except String (List (String × Nat)) :=
  (List.range n).mapM send

/-- Embedded `sendTransactions`. -/
def sendTransactions (env : BatchEnv) (wallet : Wallet)
    (instructionSet : List (List Instruction))
    (signersSet : List (List Keypair)) (sequenceType : SequenceType)
    (blockArg : Option String)
    (beforeTransactions afterTransactions : List Tx) : BatchResult :=
  match wallet.publicKey with
  | none =>
    { result := .error "Wallet not connected", blockhashFetches := 0,
      sends := [], successCalls := [], failCalls := [], signAllBatches := [],
      signedTxns := [] }
  | some pk =>
    let block := blockArg.getD env.latestBlockhash
    let fetches :=
      match blockArg with
      | some _ => 0
      | none => 1
    let unsignedTxns :=
      unsignedTxnsOf pk block instructionSet signersSet beforeTransactions
        afterTransactions
    let partiallySignedTransactions :=
      unsignedTxns.filter fun t => t.signatureSlots.contains pk
    let signedTxns :=
      signedTxnsOf pk block instructionSet signersSet beforeTransactions
        afterTransactions
    match sequenceType with
    | .Parallel =>
      { result := (parallelResults env.sendOutcome signedTxns.length).map
          fun txs => ⟨signedTxns.length, txs⟩
        blockhashFetches := fetches
        sends := List.range signedTxns.length
        successCalls := []
        failCalls := []
        signAllBatches := [partiallySignedTransactions]
        signedTxns := signedTxns }
    | _ =>
      let run :=
        seqLoop env.sendOutcome (sequenceType == SequenceType.StopOnFailure)
          signedTxns.length 0 ⟨[], [], [], []⟩
      { result := .ok (run.2.getD ⟨signedTxns.length, run.1.pending⟩)
        blockhashFetches := fetches
        sends := run.1.sends
        successCalls := run.1.successCalls
        failCalls := run.1.failCalls
        signAllBatches := [partiallySignedTransactions]
        signedTxns := signedTxns }

/-- Value of a resolved submission (total for convenience; used only at
indices known to have resolved). -/
def okVal (r : Except String (String × Nat)) : String × Nat :=
  r.toOption.getD ("", 0)

/-- Concrete five-group batch environment: each submission resolves with
txid "s" and its index as slot, except index 2 which is rejected. -/
def failAt2Env : BatchEnv :=
  ⟨"bh", fun i => if i == 2 then .error "rejected" else .ok ("s", i)⟩

/-- Concrete two-group batch environment whose second submission is
rejected. -/
def failAt1Env : BatchEnv :=
  ⟨"bh", fun i => if i == 0 then .ok ("s0", 0) else .error "rejected"⟩

/-! ## Theorems

Helper lemmas and the claim theorems, witnesses and counterexamples,
grouped per component. -/

/-- Helper invariant: if the step state has `done = true` with no
settlement, no event ever settles the promise, provided the websocket
subscription was never registered. -/
theorem trackerStuck (queryStatus : Bool) (evs : List TrackerEvent) :
    evs.foldl (stepEvent queryStatus false) (true, none) = (true, none) := by
  induction evs with
  | nil => rfl
  | cons e rest ih =>
    cases e with
    | timeout => simpa [List.foldl, stepEvent] using ih
    | wsNotify err slot => simpa [List.foldl, stepEvent] using ih
    | poll r => simpa [List.foldl, stepEvent] using ih

/-- Helper: a run with a throwing setup never settles. -/
theorem trackerRun_setupThrows (env : TrackerEnv) (h : env.setupThrows = true) :
    trackerRun env = (true, none) := by
  unfold trackerRun
  rw [h]
  exact trackerStuck env.queryStatus env.events

/-- C1 (counterexample): in a run where only the timeout fires, the
subscription is registered once but never unregistered — the rejection
propagates past the `removeSignatureListener` statement, so the claim that
the unregister count equals the register count on every exit path is false
at this input. -/
theorem claim_C1_counterexample :
    awaitTransactionSignatureConfirmation ⟨false, true, [.timeout]⟩ = .throwsTimeout ∧
    registerCalls ⟨false, true, [.timeout]⟩ = 1 ∧
    removeSignatureListenerCalls ⟨false, true, [.timeout]⟩ = 0 ∧
    removeSignatureListenerCalls ⟨false, true, [.timeout]⟩ ≠
      registerCalls ⟨false, true, [.timeout]⟩ :=
  ⟨rfl, rfl, rfl, by decide⟩

/-- C1 (amended): among terminating runs of the confirmation tracker, the
unregister count equals the register count exactly when the internal
promise resolves (confirmation without error via push or poll); when the
call ends in timeout or in a rejection, the listener is not unregistered
and leaks. -/
theorem claim_C1 (env : TrackerEnv)
    (h : awaitTransactionSignatureConfirmation env ≠ .hangs) :
    removeSignatureListenerCalls env = registerCalls env ↔
      ∃ st, awaitTransactionSignatureConfirmation env = .returns st := by
  cases h0 : env.setupThrows with
  | true =>
    refine absurd ?_ h
    unfold awaitTransactionSignatureConfirmation
    rw [trackerRun_setupThrows env h0]
  | false =>
    unfold removeSignatureListenerCalls registerCalls
    rw [h0]
    cases hA : awaitTransactionSignatureConfirmation env with
    | hangs => exact absurd hA h
    | returns st => simp
    | throwsTimeout => simp
    | throwsStatus st => simp
    | throwsErr e => simp

/-- C1 witness: a concrete resolving run where unregister equals
register. -/
theorem claim_C1_witness :
    removeSignatureListenerCalls ⟨false, true, [.wsNotify none 7]⟩ =
      registerCalls ⟨false, true, [.wsNotify none 7]⟩ :=
  (claim_C1 ⟨false, true, [.wsNotify none 7]⟩ (by decide)).2
    ⟨⟨none, 7, 0⟩, by decide⟩

/-- C9: if `connection.onSignature` throws during setup, the catch handler
sets `done` without resolving or rejecting, which also silences the
timeout branch and disables the poll loop, so the internal promise never
settles and the call never returns — for any `queryStatus` and any
sequence of later events, the timeout included. -/
theorem claim_C9 (env : TrackerEnv) (h : env.setupThrows = true) :
    awaitTransactionSignatureConfirmation env = .hangs := by
  unfold awaitTransactionSignatureConfirmation
  rw [trackerRun_setupThrows env h]

/-- C9 witness: the call hangs on a concrete run whose setup throws, even
though the timeout fires, a confirmed poll status arrives and a websocket
notification arrives. -/
theorem claim_C9_witness :
    awaitTransactionSignatureConfirmation
      ⟨true, true, [.timeout, .poll (.status ⟨none, 1, 3⟩), .wsNotify none 2]⟩ =
      .hangs :=
  claim_C9 _ rfl

/-- Helper: `find?` distributes over append, preferring the first
list. -/
theorem find?_append_or (p : String → Bool) (l1 l2 : List String) :
    (l1 ++ l2).find? p = ((l1.find? p).orElse fun _ => l2.find? p) := by
  induction l1 with
  | nil => rfl
  | cons a l ih =>
    by_cases h : p a
    · simp [List.find?_cons, h]
    · simp [List.find?_cons, h, ih]

/-- Helper: the backward scan of the log lines equals the first match of
the reversed list with the marker stripped. -/
theorem scanProgramLog_eq_reverse_find (logs : List String) :
    scanProgramLog logs =
      (logs.reverse.find? (fun l => strStartsWith l programLogMarker)).map
        (fun l => strDrop l programLogMarker.length) := by
  induction logs with
  | nil => rfl
  | cons line rest ih =>
    rw [scanProgramLog, ih, List.reverse_cons, find?_append_or]
    cases hf : rest.reverse.find? (fun l => strStartsWith l programLogMarker) with
    | some x => rfl
    | none =>
      by_cases h : strStartsWith line programLogMarker
      · simp [List.find?_cons, h]
      · simp [List.find?_cons, h]

/-- C7: when a simulated result carries an error, the Simulator error
path surfaces the first line found scanning the logs from last to first
that begins with the program-log marker, with the marker stripped
(inside the fixed failure prefix); when no line matches (or the log
array is null), the raw structured error is serialized as text. -/
theorem claim_C7 (r : SimResult) (e : String) (h : r.err = some e) :
    simulateErrorMessage r =
      match (r.logs.getD []).reverse.find?
          (fun l => strStartsWith l programLogMarker) with
      | some line =>
          "Transaction failed: " ++ strDrop line programLogMarker.length
      | none => jsonStringify e := by
  unfold simulateErrorMessage
  rw [scanProgramLog_eq_reverse_find, h]
  cases (r.logs.getD []).reverse.find? (fun l => strStartsWith l programLogMarker) <;>
    rfl

/-- C7 witness: on a concrete log list the backward scan surfaces the
last program-log line, marker stripped. -/
theorem claim_C7_witness :
    simulateErrorMessage
      ⟨some "custom program error",
        some ["Program log: begin", "other line",
          "Program log: insufficient funds"]⟩ =
      "Transaction failed: insufficient funds" := by
  rw [claim_C7 _ "custom program error" rfl]
  decide

/-- C3 (counterexample): when the tracker rejects with
`{timeout: true}`, `sendSignedTransaction` rethrows the timeout at once
with zero `simulateTransaction` calls — the Simulator is not invoked
before surfacing the timeout, contrary to the claim, even though a
simulation carrying a program-log diagnostic was available. -/
theorem claim_C3_counterexample :
    sendSignedTransaction ⟨⟨false, true, [.timeout]⟩,
        .value ⟨some "custom", some ["Program log: boom"]⟩, "sig"⟩ =
      ⟨.thrown "Timed out awaiting confirmation on transaction", true, 0⟩ ∧
    (sendSignedTransaction ⟨⟨false, true, [.timeout]⟩,
        .value ⟨some "custom", some ["Program log: boom"]⟩, "sig"⟩).simulateCalls
      = 0 :=
  ⟨rfl, rfl⟩

/-- C3 (amended): when the Confirmation Tracker reports a timeout, the
Submitter surfaces the timeout immediately, without invoking the
Simulator, and the outcome kind reported to the caller is the timeout
error; the Simulator runs only for non-timeout rejections. -/
theorem claim_C3 (env : SSTEnv)
    (h : awaitTransactionSignatureConfirmation env.tracker =
      AwaitOutcome.throwsTimeout) :
    sendSignedTransaction env =
      ⟨.thrown "Timed out awaiting confirmation on transaction", true, 0⟩ := by
  unfold sendSignedTransaction
  rw [h]

/-- C3 witness: a concrete timed-out run. -/
theorem claim_C3_witness :
    sendSignedTransaction
      ⟨⟨false, false, [.timeout]⟩, .throws "rpc unavailable", "sig2"⟩ =
      ⟨.thrown "Timed out awaiting confirmation on transaction", true, 0⟩ :=
  claim_C3 _ rfl

/-- C4 (code bug): at a run where the tracker rejects via websocket with
an error and the simulation either reports no error or itself throws,
`sendSignedTransaction` resolves with `txid = simulateResult?.err`,
i.e. null/undefined (modelled `none`) and slot 0 — the fallback coerces
a missing simulation error into the transaction id, violating the exit
contract that no undefined outcome crosses the boundary. -/
theorem claim_C4 :
    sendSignedTransaction
      ⟨⟨false, true, [.wsNotify (some "InstructionError") 5]⟩,
        .value ⟨none, none⟩, "sig"⟩ =
      ⟨.ok none 0, true, 1⟩ ∧
    sendSignedTransaction
      ⟨⟨false, true, [.wsNotify (some "InstructionError") 5]⟩,
        .throws "simulate failed", "sig"⟩ =
      ⟨.ok none 0, true, 1⟩ :=
  ⟨rfl, rfl⟩

/-- C8: on every terminating execution of `sendSignedTransaction` —
successful commit, rejection, timeout, or the undefined-txid fallback —
the `finally` block sets the `done` flag, after which the resend loop
guard is false for every elapsed time and timeout, so no further resend
iteration starts. -/
theorem claim_C8 (env : SSTEnv)
    (h : (sendSignedTransaction env).outcome ≠ SSTOutcome.hang) :
    (sendSignedTransaction env).done = true ∧
    ∀ elapsed timeout : Nat,
      resendLoopContinues (sendSignedTransaction env).done elapsed timeout =
        false := by
  have hd : (sendSignedTransaction env).done = true := by
    unfold sendSignedTransaction at h ⊢
    cases hA : awaitTransactionSignatureConfirmation env.tracker with
    | hangs => rw [hA] at h; exact absurd rfl h
    | returns st =>
      obtain ⟨err, slot, conf⟩ := st
      cases err <;> rfl
    | throwsTimeout => rfl
    | throwsStatus st => rfl
    | throwsErr e => rfl
  refine ⟨hd, fun elapsed timeout => ?_⟩
  rw [hd]
  simp [resendLoopContinues]

/-- C8 witness: a concrete rejected run ends with `done = true` and a
false resend guard. -/
theorem claim_C8_witness :
    (sendSignedTransaction
      ⟨⟨false, true, [.wsNotify none 3]⟩, .throws "x", "sig3"⟩).done = true ∧
    resendLoopContinues
      (sendSignedTransaction
        ⟨⟨false, true, [.wsNotify none 3]⟩, .throws "x", "sig3"⟩).done
      100 30000 = false :=
  ⟨(claim_C8 _ (by decide)).1, (claim_C8 _ (by decide)).2 100 30000⟩

/-- C5: when the wallet has no public key, `sendTransactions` rejects
immediately with the wallet-not-connected error for every input and
every policy: no blockhash fetch, no transaction submitted, no wallet
signing call, no callback invoked. -/
theorem claim_C5 (env : BatchEnv) (wallet : Wallet)
    (instructionSet : List (List Instruction))
    (signersSet : List (List Keypair)) (sequenceType : SequenceType)
    (blockArg : Option String)
    (beforeTransactions afterTransactions : List Tx)
    (h : wallet.publicKey = none) :
    sendTransactions env wallet instructionSet signersSet sequenceType
        blockArg beforeTransactions afterTransactions =
      { result := .error "Wallet not connected", blockhashFetches := 0,
        sends := [], successCalls := [], failCalls := [],
        signAllBatches := [], signedTxns := [] } := by
  unfold sendTransactions
  rw [h]

/-- C5 witness: a concrete batch with a keyless wallet. -/
theorem claim_C5_witness :
    sendTransactions ⟨"bh", fun _ => .error "unused"⟩ ⟨none⟩
        [[⟨1⟩]] [[]] .Sequential none [] [] =
      { result := .error "Wallet not connected", blockhashFetches := 0,
        sends := [], successCalls := [], failCalls := [],
        signAllBatches := [], signedTxns := [] } :=
  claim_C5 _ _ _ _ _ _ _ _ rfl

/-- Helper: every built transaction carries a signature slot for the
fee-payer wallet, because `setSigners` puts the wallet key first. -/
theorem buildTxns_contains_wallet (pk : PubKey) (block : String)
    (instructionSet : List (List Instruction)) :
    ∀ (signersSet : List (List Keypair)) (t : Tx),
      t ∈ buildTxns pk block instructionSet signersSet →
      t.signatureSlots.contains pk = true := by
  induction instructionSet with
  | nil =>
    intro s t ht
    simp [buildTxns] at ht
  | cons instrs rest ih =>
    intro s t ht
    simp only [buildTxns] at ht
    by_cases he : instrs.isEmpty
    · rw [if_pos he] at ht
      exact ih s.tail t ht
    · rw [if_neg he] at ht
      rcases List.mem_cons.mp ht with h1 | h1
      · subst h1
        simp [List.contains_cons]
      · exact ih s.tail t h1

/-- C6: with a connected wallet, the sequencer partitions the combined
unsigned list (before-transactions, built transactions,
after-transactions) by presence of the fee-payer signature slot, issues
exactly one batched `signAllTransactions` call whose argument is the
partition that requires the wallet, and the final submission order is
the fully signed partition first, followed by the newly wallet-signed
partition, each a sublist of the unsigned list (original relative order
preserved); every built transaction lies in the wallet partition. -/
theorem claim_C6 (env : BatchEnv) (wallet : Wallet)
    (instructionSet : List (List Instruction))
    (signersSet : List (List Keypair)) (sequenceType : SequenceType)
    (blockArg : Option String)
    (beforeTransactions afterTransactions : List Tx) (pk : PubKey)
    (h : wallet.publicKey = some pk) :
    (sendTransactions env wallet instructionSet signersSet sequenceType
        blockArg beforeTransactions afterTransactions).signAllBatches =
      [(unsignedTxnsOf pk (blockArg.getD env.latestBlockhash) instructionSet
          signersSet beforeTransactions afterTransactions).filter
        (fun t => t.signatureSlots.contains pk)] ∧
    (sendTransactions env wallet instructionSet signersSet sequenceType
        blockArg beforeTransactions afterTransactions).signedTxns =
      (unsignedTxnsOf pk (blockArg.getD env.latestBlockhash) instructionSet
          signersSet beforeTransactions afterTransactions).filter
        (fun t => !(t.signatureSlots.contains pk)) ++
      ((unsignedTxnsOf pk (blockArg.getD env.latestBlockhash) instructionSet
          signersSet beforeTransactions afterTransactions).filter
        (fun t => t.signatureSlots.contains pk)).map signTx ∧
    ((unsignedTxnsOf pk (blockArg.getD env.latestBlockhash) instructionSet
        signersSet beforeTransactions afterTransactions).filter
      (fun t => !(t.signatureSlots.contains pk))).Sublist
      (unsignedTxnsOf pk (blockArg.getD env.latestBlockhash) instructionSet
        signersSet beforeTransactions afterTransactions) ∧
    ((unsignedTxnsOf pk (blockArg.getD env.latestBlockhash) instructionSet
        signersSet beforeTransactions afterTransactions).filter
      (fun t => t.signatureSlots.contains pk)).Sublist
      (unsignedTxnsOf pk (blockArg.getD env.latestBlockhash) instructionSet
        signersSet beforeTransactions afterTransactions) ∧
    ∀ t ∈ buildTxns pk (blockArg.getD env.latestBlockhash) instructionSet
        signersSet, t.signatureSlots.contains pk = true := by
  refine ⟨?_, ?_, List.filter_sublist _, List.filter_sublist _,
    fun t ht => buildTxns_contains_wallet pk _ instructionSet signersSet t ht⟩
  · unfold sendTransactions
    rw [h]
    cases blockArg <;> cases sequenceType <;> rfl
  · unfold sendTransactions
    rw [h]
    cases blockArg <;> cases sequenceType <;>
      simp [signedTxnsOf, Option.getD]

/-- C6 witness: a concrete batch with one pre-signed before-transaction
and one built transaction. -/
theorem claim_C6_witness :
    (sendTransactions ⟨"bh", fun _ => .ok ("s", 0)⟩ ⟨some 1⟩
        [[⟨0⟩]] [[⟨2⟩]] .Sequential none [⟨[], some "old", [9], true⟩]
        []).signAllBatches =
      [(unsignedTxnsOf 1 ((none : Option String).getD "bh") [[⟨0⟩]] [[⟨2⟩]]
          [⟨[], some "old", [9], true⟩] []).filter
        (fun t => t.signatureSlots.contains 1)] :=
  (claim_C6 ⟨"bh", fun _ => .ok ("s", 0)⟩ ⟨some 1⟩ [[⟨0⟩]] [[⟨2⟩]]
    .Sequential none [⟨[], some "old", [9], true⟩] [] 1 rfl).1

/-- Helper: one resolved step of the send loop. -/
theorem seqLoop_cons_ok (send : Nat → Except String (String × Nat))
    (stop : Bool) (m i : Nat) (acc : LoopAcc) (v : String × Nat)
    (hs : send i = .ok v) :
    seqLoop send stop (m + 1) i acc =
      seqLoop send stop m (i + 1)
        { acc with
          pending := acc.pending ++ [v]
          successCalls := acc.successCalls ++ [(v.1, i)]
          sends := acc.sends ++ [i] } := by
  rw [seqLoop, hs]

/-- Helper: one rejected step under `StopOnFailure` returns early. -/
theorem seqLoop_cons_error_stop (send : Nat → Except String (String × Nat))
    (m i : Nat) (acc : LoopAcc) (e : String) (hs : send i = .error e) :
    seqLoop send true (m + 1) i acc =
      ({ acc with
          failCalls := acc.failCalls ++ [i]
          sends := acc.sends ++ [i] },
        some ⟨i, acc.pending⟩) := by
  rw [seqLoop, hs]
  rfl

/-- Helper: one rejected step under `Sequential` continues the loop. -/
theorem seqLoop_cons_error_noStop (send : Nat → Except String (String × Nat))
    (m i : Nat) (acc : LoopAcc) (e : String) (hs : send i = .error e) :
    seqLoop send false (m + 1) i acc =
      seqLoop send false m (i + 1)
        { acc with
          failCalls := acc.failCalls ++ [i]
          sends := acc.sends ++ [i] } := by
  rw [seqLoop, hs]
  rfl

/-- Helper: characterization of the `StopOnFailure` loop when the `d`
submissions starting at `i` resolve and the next one rejects: the loop
returns early with `number` equal to the failing index, the resolved
values collected so far, and exactly the indices up to the failure
submitted. -/
theorem seqLoop_stopFail (send : Nat → Except String (String × Nat))
    (e : String) :
    ∀ (d n i : Nat) (acc : LoopAcc), d < n →
      (∀ j, j < d → (send (i + j)).isOk = true) →
      send (i + d) = .error e →
      seqLoop send true n i acc =
        ({ pending := acc.pending ++
             (List.range' i d).map (fun j => okVal (send j)),
           successCalls := acc.successCalls ++
             (List.range' i d).map (fun j => ((okVal (send j)).1, j)),
           failCalls := acc.failCalls ++ [i + d],
           sends := acc.sends ++ List.range' i (d + 1) },
         some ⟨i + d,
           acc.pending ++ (List.range' i d).map (fun j => okVal (send j))⟩) := by
  intro d
  induction d with
  | zero =>
    intro n i acc hn hok hf
    rw [Nat.add_zero] at hf
    cases n with
    | zero => omega
    | succ m =>
      rw [seqLoop_cons_error_stop send m i acc e hf]
      simp [List.range'_succ, List.range'_zero]
  | succ d ih =>
    intro n i acc hn hok hf
    cases n with
    | zero => omega
    | succ m =>
      have h0 : (send i).isOk = true := by
        have h1 := hok 0 (Nat.succ_pos d)
        rwa [Nat.add_zero] at h1
      cases hs : send i with
      | error err =>
        rw [hs] at h0
        simp [Except.isOk, Except.toBool] at h0
      | ok v =>
        rw [seqLoop_cons_ok send true m i acc v hs]
        have hok' : ∀ j, j < d → (send (i + 1 + j)).isOk = true := by
          intro j hj
          have hidx : i + 1 + j = i + (j + 1) := by omega
          rw [hidx]
          exact hok (j + 1) (by omega)
        have hf' : send (i + 1 + d) = .error e := by
          have hidx : i + 1 + d = i + (d + 1) := by omega
          rw [hidx]; exact hf
        rw [ih m (i + 1) _ (by omega) hok' hf']
        have hv : okVal (send i) = v := by rw [hs]; rfl
        have hidx2 : i + 1 + d = i + (d + 1) := by omega
        simp [List.range'_succ, hv, hidx2]

/-- Helper: characterization of the `Sequential` loop: every index is
submitted, the resolved values are collected in order, failures
contribute a failure callback and no pending entry, and the loop never
returns early. -/
theorem seqLoop_noStop (send : Nat → Except String (String × Nat)) :
    ∀ (n i : Nat) (acc : LoopAcc),
      seqLoop send false n i acc =
        ({ pending := acc.pending ++
             (List.range' i n).filterMap (fun j => (send j).toOption),
           successCalls := acc.successCalls ++
             (List.range' i n).filterMap
               (fun j => ((send j).toOption).map (fun v => (v.1, j))),
           failCalls := acc.failCalls ++
             (List.range' i n).filter (fun j => !(send j).isOk),
           sends := acc.sends ++ List.range' i n },
         none) := by
  intro n
  induction n with
  | zero => intro i acc; simp [seqLoop, List.range'_zero]
  | succ m ih =>
    intro i acc
    cases hs : send i with
    | ok v =>
      rw [seqLoop_cons_ok send false m i acc v hs, ih]
      simp [List.range'_succ, List.filterMap_cons, List.filter_cons, hs,
        Except.isOk, Except.toBool, Except.toOption]
    | error err =>
      rw [seqLoop_cons_error_noStop send m i acc err hs, ih]
      simp [List.range'_succ, List.filterMap_cons, List.filter_cons, hs,
        Except.isOk, Except.toBool, Except.toOption]

/-- Helper: dropping at least one element strictly shrinks a
`filterMap`. -/
theorem filterMap_length_lt {α β : Type} (f : α → Option β) (l : List α)
    (a : α) (ha : a ∈ l) (hf : f a = none) :
    (l.filterMap f).length < l.length := by
  induction l with
  | nil => cases ha
  | cons x xs ih =>
    rcases List.mem_cons.mp ha with rfl | hmem
    · rw [List.filterMap_cons, hf]
      exact Nat.lt_succ_of_le (List.length_filterMap_le f xs)
    · rw [List.filterMap_cons]
      cases f x with
      | none => exact Nat.lt_succ_of_lt (ih hmem)
      | some b => simpa using Nat.succ_lt_succ (ih hmem)

/-- C2 (counterexample): a five-group `StopOnFailure` batch whose third
transaction (index 2) is rejected returns `{number: 2, txs: [2
outcomes]}` — the `number` field is the failing index, not the count of
transactions issued (3), and the failed transaction contributes no
outcome — refuting the claimed `{number: 3, txs: [3 outcomes]}`.
Indices 3 and 4 are indeed never submitted. -/
theorem claim_C2_counterexample :
    (sendTransactions failAt2Env ⟨some 1⟩
        [[⟨0⟩], [⟨1⟩], [⟨2⟩], [⟨3⟩], [⟨4⟩]] [[], [], [], [], []]
        .StopOnFailure (some "b") [] []).result =
      .ok ⟨2, [("s", 0), ("s", 1)]⟩ ∧
    (sendTransactions failAt2Env ⟨some 1⟩
        [[⟨0⟩], [⟨1⟩], [⟨2⟩], [⟨3⟩], [⟨4⟩]] [[], [], [], [], []]
        .StopOnFailure (some "b") [] []).sends = [0, 1, 2] ∧
    ((sendTransactions failAt2Env ⟨some 1⟩
        [[⟨0⟩], [⟨1⟩], [⟨2⟩], [⟨3⟩], [⟨4⟩]] [[], [], [], [], []]
        .StopOnFailure (some "b") [] []).result.toOption.map
      SeqResult.number) = some 2 ∧
    ((sendTransactions failAt2Env ⟨some 1⟩
        [[⟨0⟩], [⟨1⟩], [⟨2⟩], [⟨3⟩], [⟨4⟩]] [[], [], [], [], []]
        .StopOnFailure (some "b") [] []).result.toOption.map
      (fun r => r.txs.length)) = some 2 :=
  ⟨rfl, rfl, rfl, rfl⟩

/-- C2 (amended): under `StopOnFailure`, when the first `k` submissions
resolve and the transaction at index `k` is rejected, `sendTransactions`
submits exactly indices `0..k` (nothing beyond the failure) and returns
`{number: k, txs: [k outcomes]}` — the `number` field is the failing
index (one less than the count issued) and the `txs` list holds the
outcomes of the `k` successful transactions before the failure,
excluding the failed one. -/
theorem claim_C2 (env : BatchEnv) (wallet : Wallet)
    (instructionSet : List (List Instruction))
    (signersSet : List (List Keypair)) (blockArg : Option String)
    (beforeTransactions afterTransactions : List Tx) (pk k : Nat)
    (e : String) (h : wallet.publicKey = some pk)
    (hk : k < (signedTxnsOf pk (blockArg.getD env.latestBlockhash)
      instructionSet signersSet beforeTransactions
      afterTransactions).length)
    (hok : ∀ j, j < k → (env.sendOutcome j).isOk = true)
    (hfail : env.sendOutcome k = .error e) :
    (sendTransactions env wallet instructionSet signersSet .StopOnFailure
        blockArg beforeTransactions afterTransactions).result =
      .ok ⟨k, (List.range k).map (fun j => okVal (env.sendOutcome j))⟩ ∧
    (sendTransactions env wallet instructionSet signersSet .StopOnFailure
        blockArg beforeTransactions afterTransactions).sends =
      List.range (k + 1) := by
  have hok0 : ∀ j, j < k → (env.sendOutcome (0 + j)).isOk = true := by
    intro j hj; rw [Nat.zero_add]; exact hok j hj
  have hfail0 : env.sendOutcome (0 + k) = .error e := by
    rw [Nat.zero_add]; exact hfail
  have hb : (SequenceType.StopOnFailure == SequenceType.StopOnFailure) =
      true := rfl
  simp only [sendTransactions, h, hb]
  rw [seqLoop_stopFail env.sendOutcome e k _ 0 ⟨[], [], [], []⟩ hk hok0
    hfail0]
  simp [← List.range_eq_range']

/-- C2 witness: the general amended statement instantiated at the
concrete five-group batch failing at index 2. -/
theorem claim_C2_witness :
    (sendTransactions failAt2Env ⟨some 1⟩
        [[⟨0⟩], [⟨1⟩], [⟨2⟩], [⟨3⟩], [⟨4⟩]] [[], [], [], [], []]
        .StopOnFailure (some "b") [] []).result =
      .ok ⟨2, (List.range 2).map (fun j => okVal (failAt2Env.sendOutcome j))⟩ ∧
    (sendTransactions failAt2Env ⟨some 1⟩
        [[⟨0⟩], [⟨1⟩], [⟨2⟩], [⟨3⟩], [⟨4⟩]] [[], [], [], [], []]
        .StopOnFailure (some "b") [] []).sends = List.range (2 + 1) :=
  claim_C2 failAt2Env ⟨some 1⟩ [[⟨0⟩], [⟨1⟩], [⟨2⟩], [⟨3⟩], [⟨4⟩]]
    [[], [], [], [], []] (some "b") [] [] 1 2 "rejected" rfl (by decide)
    (by decide) rfl

/-- C10: under `Sequential`, `sendTransactions` returns `number` equal
to the total count of signed transactions while `txs` collects an
outcome only for each resolved submission; whenever at least one
submission is rejected, `number` strictly exceeds the length of
`txs`. -/
theorem claim_C10 (env : BatchEnv) (wallet : Wallet)
    (instructionSet : List (List Instruction))
    (signersSet : List (List Keypair)) (blockArg : Option String)
    (beforeTransactions afterTransactions : List Tx) (pk : PubKey)
    (h : wallet.publicKey = some pk) (i : Nat)
    (hi : i < (signedTxnsOf pk (blockArg.getD env.latestBlockhash)
      instructionSet signersSet beforeTransactions
      afterTransactions).length)
    (hfail : (env.sendOutcome i).isOk = false) :
    (sendTransactions env wallet instructionSet signersSet .Sequential
        blockArg beforeTransactions afterTransactions).result =
      .ok ⟨(signedTxnsOf pk (blockArg.getD env.latestBlockhash)
          instructionSet signersSet beforeTransactions
          afterTransactions).length,
        (List.range (signedTxnsOf pk (blockArg.getD env.latestBlockhash)
          instructionSet signersSet beforeTransactions
          afterTransactions).length).filterMap
          (fun j => (env.sendOutcome j).toOption)⟩ ∧
    ((List.range (signedTxnsOf pk (blockArg.getD env.latestBlockhash)
        instructionSet signersSet beforeTransactions
        afterTransactions).length).filterMap
      (fun j => (env.sendOutcome j).toOption)).length <
      (signedTxnsOf pk (blockArg.getD env.latestBlockhash) instructionSet
        signersSet beforeTransactions afterTransactions).length := by
  constructor
  · have hb : (SequenceType.Sequential == SequenceType.StopOnFailure) =
        false := rfl
    simp only [sendTransactions, h, hb]
    rw [seqLoop_noStop env.sendOutcome _ 0 ⟨[], [], [], []⟩]
    simp [← List.range_eq_range']
  · have hnone : (env.sendOutcome i).toOption = none := by
      cases he : env.sendOutcome i with
      | ok v => rw [he] at hfail; simp [Except.isOk, Except.toBool] at hfail
      | error err => rfl
    simpa using
      filterMap_length_lt (fun j => (env.sendOutcome j).toOption)
        (List.range (signedTxnsOf pk (blockArg.getD env.latestBlockhash)
          instructionSet signersSet beforeTransactions
          afterTransactions).length)
        i (List.mem_range.mpr hi) hnone

/-- C10 witness: the statement instantiated at a concrete two-group
batch whose second submission is rejected. -/
theorem claim_C10_witness :
    (sendTransactions failAt1Env ⟨some 1⟩ [[⟨0⟩], [⟨1⟩]] [[], []]
        .Sequential (some "b") [] []).result =
      .ok ⟨(signedTxnsOf 1 ((some "b").getD failAt1Env.latestBlockhash)
          [[⟨0⟩], [⟨1⟩]] [[], []] [] []).length,
        (List.range (signedTxnsOf 1
          ((some "b").getD failAt1Env.latestBlockhash)
          [[⟨0⟩], [⟨1⟩]] [[], []] [] []).length).filterMap
          (fun j => (failAt1Env.sendOutcome j).toOption)⟩ ∧
    ((List.range (signedTxnsOf 1
        ((some "b").getD failAt1Env.latestBlockhash)
        [[⟨0⟩], [⟨1⟩]] [[], []] [] []).length).filterMap
      (fun j => (failAt1Env.sendOutcome j).toOption)).length <
      (signedTxnsOf 1 ((some "b").getD failAt1Env.latestBlockhash)
        [[⟨0⟩], [⟨1⟩]] [[], []] [] []).length :=
  claim_C10 failAt1Env ⟨some 1⟩ [[⟨0⟩], [⟨1⟩]] [[], []] (some "b") [] [] 1
    rfl 1 (by decide) (by decide)

end CandyMachine
